import Mathlib

/-!
Shallow embedding of the blockchain-research collection pipeline
(`unified_dataset.py`, `robust_collector.py`, `arweave_collector.py`,
`overnight_collect.py`, `prepare_dataset.py`) and verification of the
specification's claims about it.

Conventions used throughout:
* Python `bytes` values are modelled as `List Nat`; Python truthiness of a
  `bytes` (or `Optional[bytes]`) value is `pyTruthy`.
* Wall-clock time (`time.time()`, `datetime.now()`) is modelled as `Int`
  seconds; `time.sleep(d)` advances the clock by `d`.
* Python `dict` objects keyed by strings are modelled as association lists
  in insertion order.
* The SHA-256 hex digest is abstracted as an explicit function parameter
  `hashHex : List Nat → String` wherever the code calls
  `hashlib.sha256(content).hexdigest()`: every claim that touches the digest
  uses only the fact that it is a deterministic function of the bytes, never
  any property of SHA-256 itself.
* Python `float` fields (`price_usd`, `rarity_score`) are modelled as `ℚ`;
  no claim performs arithmetic on them.
-/

namespace BlockchainResearch

/-- Python truthiness of an `Optional[bytes]` value: `None` and `b""` are
falsy, any non-empty bytes value is truthy. -/
def pyTruthy : Option (List Nat) → Bool
  | none => false
  | some bs => !bs.isEmpty

/-! ## `unified_dataset.py`: the `UnifiedRecord` schema and `deduplicate` -/

/-- `UnifiedRecord` dataclass from `unified_dataset.py` (all fields).
`price_usd` and `rarity_score` are Python floats, modelled as `ℚ`. -/
structure UnifiedRecord where
  id : String
  chain : String
  chain_id : String
  content_type : String
  content_hash : String
  content_length : Nat
  local_path : String
  block_height : Int := 0
  timestamp : Int := 0
  inscription_number : Int := 0
  collection : String := ""
  name : String := ""
  protocol : String := ""
  is_recursive : Bool := false
  is_nft : Bool := false
  is_protocol_data : Bool := false
  price_usd : ℚ := 0
  rarity_score : ℚ := 0
deriving DecidableEq, Repr

/-- The dedup key computed in `UnifiedDatasetGenerator.deduplicate`:
`key = f"{record.chain}:{record.content_hash}"`. -/
def dedupKey (r : UnifiedRecord) : String :=
  r.chain ++ ":" ++ r.content_hash

/-- Generic first-seen filtering loop shared by
`UnifiedDatasetGenerator.deduplicate` and
`DatasetPreparer._load_all_metadata`: walk the list once with a `seen` set
of keys; an element whose key is `none` is dropped; an element whose key is
already in `seen` is dropped; otherwise the element is kept and its key is
added to `seen`.  The Python `set` is modelled as a list of keys. -/
def dedupFirstAux (key : α → Option String) (seen : List String) :
    List α → List α
  | [] => []
  | r :: rs =>
    match key r with
    | none => dedupFirstAux key seen rs
    | some k =>
      if k ∈ seen then dedupFirstAux key seen rs
      else r :: dedupFirstAux key (k :: seen) rs

/-- `UnifiedDatasetGenerator.deduplicate` (lines 206–221 of
`unified_dataset.py`): keep the first record for each `chain:content_hash`
key, in order; every record has a key (there is no drop case). -/
def deduplicate (records : List UnifiedRecord) : List UnifiedRecord :=
  dedupFirstAux (fun r => some (dedupKey r)) [] records

/-! ### Generic lemmas about the first-seen loop -/

theorem dedupFirstAux_cons_none {key : α → Option String} {a : α}
    (seen : List String) (rs : List α) (h : key a = none) :
    dedupFirstAux key seen (a :: rs) = dedupFirstAux key seen rs := by
  simp [dedupFirstAux, h]

theorem dedupFirstAux_cons_mem {key : α → Option String} {a : α} {k : String}
    {seen : List String} (rs : List α) (h : key a = some k) (hk : k ∈ seen) :
    dedupFirstAux key seen (a :: rs) = dedupFirstAux key seen rs := by
  simp [dedupFirstAux, h, hk]

theorem dedupFirstAux_cons_new {key : α → Option String} {a : α} {k : String}
    {seen : List String} (rs : List α) (h : key a = some k) (hk : k ∉ seen) :
    dedupFirstAux key seen (a :: rs) = a :: dedupFirstAux key (k :: seen) rs := by
  simp [dedupFirstAux, h, hk]

theorem dedupFirstAux_sublist (key : α → Option String) (seen : List String) :
    ∀ l : List α, (dedupFirstAux key seen l).Sublist l
  | [] => List.Sublist.refl _
  | r :: rs => by
    cases h : key r with
    | none =>
      rw [dedupFirstAux_cons_none seen rs h]
      exact (dedupFirstAux_sublist key seen rs).cons r
    | some k =>
      by_cases hk : k ∈ seen
      · rw [dedupFirstAux_cons_mem rs h hk]
        exact (dedupFirstAux_sublist key seen rs).cons r
      · rw [dedupFirstAux_cons_new rs h hk]
        exact (dedupFirstAux_sublist key (k :: seen) rs).cons₂ r

/-- Every element kept by the loop has a key, and that key was not in the
`seen` accumulator when the loop started. -/
theorem dedupFirstAux_mem_key (key : α → Option String) :
    ∀ (seen : List String) (l : List α) (r : α),
      r ∈ dedupFirstAux key seen l → ∃ k, key r = some k ∧ k ∉ seen := by
  intro seen l
  induction l generalizing seen with
  | nil => intro r hr; simp [dedupFirstAux] at hr
  | cons a rs ih =>
    intro r hr
    cases h : key a with
    | none =>
      rw [dedupFirstAux_cons_none seen rs h] at hr
      exact ih seen r hr
    | some k =>
      by_cases hk : k ∈ seen
      · rw [dedupFirstAux_cons_mem rs h hk] at hr
        exact ih seen r hr
      · rw [dedupFirstAux_cons_new rs h hk] at hr
        rcases List.mem_cons.mp hr with rfl | hr'
        · exact ⟨k, h, hk⟩
        · obtain ⟨k', hk', hnot⟩ := ih (k :: seen) r hr'
          exact ⟨k', hk', fun hmem => hnot (List.mem_cons_of_mem _ hmem)⟩

/-- The kept elements have pairwise distinct keys. -/
theorem dedupFirstAux_pairwise (key : α → Option String) :
    ∀ (seen : List String) (l : List α),
      (dedupFirstAux key seen l).Pairwise (fun a b => key a ≠ key b) := by
  intro seen l
  induction l generalizing seen with
  | nil => simp [dedupFirstAux]
  | cons a rs ih =>
    cases h : key a with
    | none => rw [dedupFirstAux_cons_none seen rs h]; exact ih seen
    | some k =>
      by_cases hk : k ∈ seen
      · rw [dedupFirstAux_cons_mem rs h hk]; exact ih seen
      · rw [dedupFirstAux_cons_new rs h hk]
        refine List.Pairwise.cons ?_ (ih (k :: seen))
        intro b hb hkey
        obtain ⟨k', hk', hnot⟩ := dedupFirstAux_mem_key key (k :: seen) rs b hb
        rw [h, hk'] at hkey
        cases hkey
        exact hnot (List.mem_cons_self _ _)

/-- Completeness: any input element whose key exists and is not already in
`seen` is represented in the output by some kept element with the same
key. -/
theorem dedupFirstAux_complete (key : α → Option String) :
    ∀ (seen : List String) (l : List α) (r : α) (k : String),
      r ∈ l → key r = some k → k ∉ seen →
      ∃ r', r' ∈ dedupFirstAux key seen l ∧ key r' = some k := by
  intro seen l
  induction l generalizing seen with
  | nil => intro r k hr; simp at hr
  | cons a rs ih =>
    intro r k hr hkey hns
    cases h : key a with
    | none =>
      rw [dedupFirstAux_cons_none seen rs h]
      rcases List.mem_cons.mp hr with rfl | hr'
      · rw [h] at hkey; exact absurd hkey (by simp)
      · exact ih seen r k hr' hkey hns
    | some k₀ =>
      by_cases hk : k₀ ∈ seen
      · rw [dedupFirstAux_cons_mem rs h hk]
        rcases List.mem_cons.mp hr with rfl | hr'
        · rw [h] at hkey; cases hkey; exact absurd hk hns
        · exact ih seen r k hr' hkey hns
      · rw [dedupFirstAux_cons_new rs h hk]
        by_cases hkk : k = k₀
        · subst hkk
          exact ⟨a, List.mem_cons_self _ _, h⟩
        · rcases List.mem_cons.mp hr with rfl | hr'
          · rw [h] at hkey; cases hkey; exact absurd rfl hkk
          · obtain ⟨r', hr'', hkey'⟩ :=
              ih (k₀ :: seen) r k hr'
                hkey (by simp [hkk, hns])
            exact ⟨r', List.mem_cons_of_mem _ hr'', hkey'⟩

/-- First-occurrence property: every kept element occurs in the input at a
position before which no element shares its key. -/
theorem dedupFirstAux_first_occ (key : α → Option String) :
    ∀ (seen : List String) (l : List α) (r : α),
      r ∈ dedupFirstAux key seen l →
      ∃ l₁ l₂, l = l₁ ++ r :: l₂ ∧ ∀ x ∈ l₁, key x ≠ key r := by
  intro seen l
  induction l generalizing seen with
  | nil => intro r hr; simp [dedupFirstAux] at hr
  | cons a rs ih =>
    intro r hr
    obtain ⟨k, hk, hkns⟩ := dedupFirstAux_mem_key key seen (a :: rs) r hr
    cases h : key a with
    | none =>
      rw [dedupFirstAux_cons_none seen rs h] at hr
      obtain ⟨l₁, l₂, heq, hfirst⟩ := ih seen r hr
      refine ⟨a :: l₁, l₂, by simp [heq], ?_⟩
      intro x hx
      rcases List.mem_cons.mp hx with rfl | hx'
      · rw [h, hk]; simp
      · exact hfirst x hx'
    | some k₀ =>
      by_cases hk₀ : k₀ ∈ seen
      · rw [dedupFirstAux_cons_mem rs h hk₀] at hr
        obtain ⟨l₁, l₂, heq, hfirst⟩ := ih seen r hr
        refine ⟨a :: l₁, l₂, by simp [heq], ?_⟩
        intro x hx
        rcases List.mem_cons.mp hx with rfl | hx'
        · rw [h, hk]
          intro hcontra
          exact hkns (by cases hcontra; exact hk₀)
        · exact hfirst x hx'
      · rw [dedupFirstAux_cons_new rs h hk₀] at hr
        rcases List.mem_cons.mp hr with rfl | hr'
        · exact ⟨[], rs, rfl, by simp⟩
        · obtain ⟨k', hk', hkns'⟩ := dedupFirstAux_mem_key key (k₀ :: seen) rs r hr'
          obtain ⟨l₁, l₂, heq, hfirst⟩ := ih (k₀ :: seen) r hr'
          refine ⟨a :: l₁, l₂, by simp [heq], ?_⟩
          intro x hx
          rcases List.mem_cons.mp hx with rfl | hx'
          · rw [h, hk']
            intro hcontra
            cases hcontra
            exact hkns' (List.mem_cons_self _ _)
          · exact hfirst x hx'

/-! ## `prepare_dataset.py`: `DatasetPreparer._load_all_metadata` -/

/-- A raw metadata record as parsed from a JSON metadata file in
`DatasetPreparer._load_all_metadata`.  Keys accessed via `.get` may be
absent, hence `Option`. -/
structure MetaRecord where
  id : Option String
  number : Option Int := none
  content_type : Option String := none
  file_hash : Option String := none
  local_path : Option String := none
  content_length : Option Nat := none
deriving DecidableEq, Repr

/-- The id under which `_load_all_metadata` deduplicates:
`rid = r.get('id', '')`. -/
def metaRid (r : MetaRecord) : String := r.id.getD ""

/-- The dedup stage of `DatasetPreparer._load_all_metadata` (lines 56–64 of
`prepare_dataset.py`), applied to the concatenated list of records parsed
from the metadata files: `if rid and rid not in seen` keeps a record only
when its id is non-empty and not seen before. -/
def loadAllMetadataDedup (records : List MetaRecord) : List MetaRecord :=
  dedupFirstAux (fun r => if metaRid r = "" then none else some (metaRid r))
    [] records

/-! ## Theorems for claims C1, C5, C10 -/

/-- Claim C5: `UnifiedDatasetGenerator.deduplicate()` retains, for each
dedup key, exactly the first-seen record in load order, discards every
later duplicate, and never mutates the retained record.  Formally: the
result is a sublist of the input (so every retained record is an input
record, unchanged, in input order); retained records have pairwise
distinct dedup keys; every input record's key is represented; and every
retained record occurs in the input at a position before which no record
shares its key (first-seen-wins). -/
theorem deduplicate_first_seen_wins (records : List UnifiedRecord) :
    (deduplicate records).Sublist records ∧
    (deduplicate records).Pairwise (fun a b => dedupKey a ≠ dedupKey b) ∧
    (∀ r ∈ records, ∃ r' ∈ deduplicate records, dedupKey r' = dedupKey r) ∧
    (∀ r ∈ deduplicate records, ∃ l₁ l₂, records = l₁ ++ r :: l₂ ∧
      ∀ x ∈ l₁, dedupKey x ≠ dedupKey r) := by
  refine ⟨dedupFirstAux_sublist _ [] records, ?_, ?_, ?_⟩
  · have h := dedupFirstAux_pairwise
      (fun r : UnifiedRecord => some (dedupKey r)) [] records
    exact h.imp fun hne heq => hne (by rw [heq])
  · intro r hr
    obtain ⟨r', hr', hkey⟩ := dedupFirstAux_complete
      (fun r : UnifiedRecord => some (dedupKey r)) [] records r (dedupKey r)
      hr rfl (List.not_mem_nil _)
    exact ⟨r', hr', Option.some.inj hkey⟩
  · intro r hr
    obtain ⟨l₁, l₂, heq, hfirst⟩ := dedupFirstAux_first_occ
      (fun r : UnifiedRecord => some (dedupKey r)) [] records r hr
    refine ⟨l₁, l₂, heq, fun x hx hkey => hfirst x hx (by rw [hkey])⟩

/-- First record of the C5 witness run (kept: first occurrence of its
key). -/
def recW1 : UnifiedRecord :=
  { id := "w1", chain := "bitcoin", chain_id := "i1",
    content_type := "image/png", content_hash := "abcd",
    content_length := 3, local_path := "p1" }

/-- Second record of the C5 witness run: same chain and content hash as
`recW1` but richer metadata (a name), so a later duplicate. -/
def recW2dup : UnifiedRecord :=
  { id := "w2", chain := "bitcoin", chain_id := "i2",
    content_type := "image/png", content_hash := "abcd",
    content_length := 3, local_path := "p2", name := "rich" }

theorem deduplicate_first_seen_wins_witness :
    recW2dup ∈ [recW1, recW2dup] ∧
    ∃ r' ∈ deduplicate [recW1, recW2dup], dedupKey r' = dedupKey recW2dup :=
  ⟨by decide,
   (deduplicate_first_seen_wins [recW1, recW2dup]).2.2.1 recW2dup (by decide)⟩

/-- A bitcoin-chain record for the C1 counterexample. -/
def cexBtc : UnifiedRecord :=
  { id := "b1", chain := "bitcoin", chain_id := "ib",
    content_type := "image/png", content_hash := "aaaa",
    content_length := 4, local_path := "pb" }

/-- An arweave-chain record with the same content hash as `cexBtc`. -/
def cexArw : UnifiedRecord :=
  { id := "a1", chain := "arweave", chain_id := "ia",
    content_type := "image/png", content_hash := "aaaa",
    content_length := 4, local_path := "pa" }

/-- Claim C1 counterexample: `deduplicate` keys on
`f"{record.chain}:{record.content_hash}"`, not on the content hash alone,
so two distinct records from different chains with the same content hash
both survive deduplication — the digest-uniqueness invariant as stated is
violated. -/
theorem dedup_cross_chain_duplicate_survives :
    cexBtc ∈ deduplicate [cexBtc, cexArw] ∧
    cexArw ∈ deduplicate [cexBtc, cexArw] ∧
    cexBtc ≠ cexArw ∧
    cexBtc.content_hash = cexArw.content_hash := by
  decide

/-- Claim C1 amended: after `deduplicate()`, any two distinct remaining
records have distinct `(chain, content_hash)` pairs — the dedup key is the
chain-qualified content hash, not the content hash alone. -/
theorem dedup_pairwise_chain_hash_distinct (records : List UnifiedRecord) :
    (deduplicate records).Pairwise
      (fun a b => ¬(a.chain = b.chain ∧ a.content_hash = b.content_hash)) := by
  have h := dedupFirstAux_pairwise
    (fun r : UnifiedRecord => some (dedupKey r)) [] records
  exact h.imp fun hne ⟨hc, hh⟩ => hne (by simp [dedupKey, hc, hh])

/-- Claim C10: the dedup stage of `DatasetPreparer._load_all_metadata`
returns a list in which every record has a non-empty id; no two records
share an id; the result is a sublist of the loaded records (first
occurrence per id kept, in load order); every kept record is the first
loaded record bearing its id; and every loaded record with a non-empty id
is represented.  Records with a missing or empty `id` are dropped. -/
theorem load_all_metadata_dedup_by_id (records : List MetaRecord) :
    (∀ r ∈ loadAllMetadataDedup records, metaRid r ≠ "") ∧
    (loadAllMetadataDedup records).Pairwise
      (fun a b => metaRid a ≠ metaRid b) ∧
    (loadAllMetadataDedup records).Sublist records ∧
    (∀ r ∈ loadAllMetadataDedup records, ∃ l₁ l₂, records = l₁ ++ r :: l₂ ∧
      ∀ x ∈ l₁, metaRid x ≠ metaRid r) ∧
    (∀ r ∈ records, metaRid r ≠ "" →
      ∃ r' ∈ loadAllMetadataDedup records, metaRid r' = metaRid r) := by
  set key : MetaRecord → Option String :=
    fun r => if metaRid r = "" then none else some (metaRid r) with hkeydef
  have keyNe : ∀ r ∈ loadAllMetadataDedup records, metaRid r ≠ "" := by
    intro r hr
    obtain ⟨k, hk, -⟩ := dedupFirstAux_mem_key key [] records r hr
    intro hrid
    rw [hkeydef] at hk
    simp only [hrid, if_pos] at hk
    exact Option.noConfusion hk
  have keySome : ∀ r : MetaRecord, metaRid r ≠ "" → key r = some (metaRid r) := by
    intro r hne
    rw [hkeydef]
    simp [hne]
  refine ⟨keyNe, ?_, dedupFirstAux_sublist key [] records, ?_, ?_⟩
  · have h := dedupFirstAux_pairwise key [] records
    refine h.imp_of_mem ?_
    intro a b ha hb hne heq
    apply hne
    rw [keySome a (keyNe a ha), keySome b (keyNe b hb), heq]
  · intro r hr
    obtain ⟨l₁, l₂, heq, hfirst⟩ := dedupFirstAux_first_occ key [] records r hr
    refine ⟨l₁, l₂, heq, fun x hx hx' => hfirst x hx ?_⟩
    rw [keySome r (keyNe r hr), ← hx', hkeydef]
    by_cases hxe : metaRid x = ""
    · rw [hx'] at hxe; exact absurd hxe (keyNe r hr)
    · simp [hxe]
  · intro r hr hne
    obtain ⟨r', hr', hkey⟩ := dedupFirstAux_complete key [] records r (metaRid r)
      hr (keySome r hne) (List.not_mem_nil _)
    refine ⟨r', hr', ?_⟩
    by_cases hre : metaRid r' = ""
    · rw [hkeydef] at hkey; simp [hre] at hkey
    · rw [keySome r' hre] at hkey
      exact Option.some.inj hkey

/-- First metadata record of the C10 witness run. -/
def metaW1 : MetaRecord := { id := some "ins1", number := some 5 }

/-- Second metadata record of the C10 witness run: duplicate id. -/
def metaW2 : MetaRecord := { id := some "ins1", number := some 9 }

/-- Third metadata record of the C10 witness run: missing id (dropped). -/
def metaW3 : MetaRecord := { id := none, number := some 7 }

theorem load_all_metadata_dedup_by_id_witness :
    metaW2 ∈ [metaW1, metaW2, metaW3] ∧ metaRid metaW2 ≠ "" ∧
    ∃ r' ∈ loadAllMetadataDedup [metaW1, metaW2, metaW3],
      metaRid r' = metaRid metaW2 :=
  ⟨by decide, by decide,
   (load_all_metadata_dedup_by_id [metaW1, metaW2, metaW3]).2.2.2.2 metaW2
     (by decide) (by decide)⟩

/-! ## `robust_collector.py`: `MultiAPICollector._wait_for_rate_limit` -/

/-- Per-API rate-limiter state from `MultiAPICollector.__init__`:
`last_call` (a `time.time()` value, initially `0`) and
`calls_this_minute` (initially `0`). -/
structure RateState where
  last_call : Int
  calls_this_minute : Nat
deriving DecidableEq, Repr

/-- `MultiAPICollector._wait_for_rate_limit` (lines 44–62 of
`robust_collector.py`), as a function of the configured `rate_limit`, the
API's limiter state, and the current clock `now`.  Returns the time at
which the call is admitted (i.e. when the method returns, after any
`time.sleep`) together with the updated state.  The code:
reset `calls_this_minute` to 0 when `now - last_call > 60`; if the counter
is at the limit, sleep `60 - (now - last_call)` when positive and zero the
counter; finally increment the counter and set `last_call` to the
post-sleep clock.  The trailing increment-and-stamp is folded into each
branch here. -/
def waitForRateLimit (rate_limit : Nat) (st : RateState) (now : Int) :
    Int × RateState :=
  let calls1 : Nat :=
    if now - st.last_call > 60 then 0 else st.calls_this_minute
  if calls1 ≥ rate_limit then
    let wait : Int := 60 - (now - st.last_call)
    if wait > 0 then
      (now + wait, ⟨now + wait, 0 + 1⟩)
    else
      (now, ⟨now, calls1 + 1⟩)
  else
    (now, ⟨now, calls1 + 1⟩)

/-- A burst of `k` admission requests issued back to back: each request is
issued at the instant the previous one was admitted, so no wall-clock time
passes between requests except time spent sleeping inside the limiter.
Returns the admission time of the last request and the final state. -/
def burstCalls (rate_limit : Nat) (st : RateState) (now : Int) :
    Nat → Int × RateState
  | 0 => (now, st)
  | k + 1 =>
    let r := waitForRateLimit rate_limit st now
    burstCalls rate_limit r.2 r.1 k

theorem burstCalls_succ (rate_limit : Nat) (st : RateState) (now : Int)
    (k : Nat) :
    burstCalls rate_limit st now (k + 1) =
      burstCalls rate_limit (waitForRateLimit rate_limit st now).2
        (waitForRateLimit rate_limit st now).1 k := rfl

/-- Below the limit, an admission request at the instant of the previous
call is admitted immediately and just bumps the counter. -/
theorem waitForRateLimit_steady (N c : Nat) (t : Int) (hc : c < N) :
    waitForRateLimit N ⟨t, c⟩ t = (t, ⟨t, c + 1⟩) := by
  unfold waitForRateLimit
  rw [if_neg (by omega : ¬(t - t > 60))]
  rw [if_neg (by omega : ¬(c ≥ N))]

/-- The first request from the initial state (`last_call = 0`,
`calls_this_minute = 0`) is admitted immediately when the limit is
positive. -/
theorem waitForRateLimit_init (N : Nat) (t : Int) (hN : 1 ≤ N) :
    waitForRateLimit N ⟨0, 0⟩ t = (t, ⟨t, 1⟩) := by
  unfold waitForRateLimit
  rw [ite_self (c := t - 0 > 60) (a := (0 : Nat))]
  rw [if_neg (by omega : ¬(0 ≥ N))]

/-- At the limit, an admission request at the instant of the previous call
sleeps the full 60-second window. -/
theorem waitForRateLimit_blocked (N : Nat) (t : Int) :
    waitForRateLimit N ⟨t, N⟩ t = (t + 60, ⟨t + 60, 1⟩) := by
  unfold waitForRateLimit
  rw [if_neg (by omega : ¬(t - t > 60))]
  rw [if_pos (le_refl N)]
  rw [if_pos (by omega : (60 : Int) - (t - t) > 0)]
  have h : (60 : Int) - (t - t) = 60 := by omega
  rw [h]

theorem burstCalls_steady (N : Nat) (t : Int) :
    ∀ (k c : Nat), c + k ≤ N →
      burstCalls N ⟨t, c⟩ t k = (t, ⟨t, c + k⟩) := by
  intro k
  induction k with
  | zero => intro c _; rfl
  | succ k ih =>
    intro c hck
    rw [burstCalls_succ, waitForRateLimit_steady N c t (by omega)]
    rw [ih (c + 1) (by omega)]
    have h : c + 1 + k = c + (k + 1) := by omega
    rw [h]

theorem burstCalls_until_block (N : Nat) (t : Int) :
    ∀ (k c : Nat), c + k = N + 1 → c ≤ N →
      burstCalls N ⟨t, c⟩ t k = (t + 60, ⟨t + 60, 1⟩) := by
  intro k
  induction k with
  | zero => intro c hck hc; omega
  | succ k ih =>
    intro c hck hc
    by_cases hcN : c = N
    · have hk : k = 0 := by omega
      subst hk
      rw [hcN, burstCalls_succ, waitForRateLimit_blocked N t]
      rfl
    · rw [burstCalls_succ, waitForRateLimit_steady N c t (by omega)]
      exact ih (c + 1) (by omega) (by omega)

/-- Claim C3: with `rate_limit = N ≥ 1`, a burst of `N + 1` admission
requests issued instantaneously from the initial limiter state is served
as follows: each of the first `N` requests is admitted immediately (at the
burst start time `t`), and the `(N+1)`-th request is admitted only at
`t + 60`, i.e. not before a full 60-second window has elapsed since the
burst began. -/
theorem rate_limit_burst_blocks_final_request (N : Nat) (t : Int)
    (hN : 1 ≤ N) :
    (∀ k, 1 ≤ k → k ≤ N → (burstCalls N ⟨0, 0⟩ t k).1 = t) ∧
    (burstCalls N ⟨0, 0⟩ t (N + 1)).1 = t + 60 := by
  constructor
  · intro k hk1 hkN
    obtain ⟨j, rfl⟩ : ∃ j, k = j + 1 := ⟨k - 1, by omega⟩
    rw [burstCalls_succ, waitForRateLimit_init N t hN]
    rw [burstCalls_steady N t j 1 (by omega)]
  · rw [burstCalls_succ, waitForRateLimit_init N t hN]
    rw [burstCalls_until_block N t N 1 (by omega) (by omega)]

theorem rate_limit_burst_blocks_final_request_witness :
    1 ≤ 2 ∧ (burstCalls 2 ⟨0, 0⟩ 5 3).1 = 5 + 60 :=
  ⟨by decide, (rate_limit_burst_blocks_final_request 2 5 (by decide)).2⟩

/-! ## `robust_collector.py` / `arweave_collector.py`: content fetching -/

/-- Outcome of the single HTTP GET an endpoint helper issues inside its
try/except wrapper: either the response body of a successful request, or
an exception (`transient = true` models timeout / 5xx / connection reset,
`false` models non-transient errors such as not-found; the code catches
all of them identically). -/
inductive NetResult where
  | ok (content : List Nat)
  | exn (transient : Bool)
deriving DecidableEq, Repr

/-- What the one request issued by an endpoint helper returns.  The
behaviour of an endpoint during one fetch is a function from attempt
index to `NetResult`; the code only ever issues attempt `0`. -/
def resultOf (beh : Nat → NetResult) : Option (List Nat) :=
  match beh 0 with
  | NetResult.ok c => some c
  | NetResult.exn _ => none

/-- `MultiAPICollector.fetch_content_ordinals_com` (lines 97–105 of
`robust_collector.py`): a single GET inside try/except; any exception
yields `None`.  Returns the result together with the number of requests
issued against the endpoint (always exactly one). -/
def fetchContentOrdinalsCom (beh : Nat → NetResult) :
    Option (List Nat) × Nat :=
  (resultOf beh, 1)

/-- `MultiAPICollector.fetch_content_hiro` (lines 86–95 of
`robust_collector.py`): a single GET inside try/except; any exception
yields `None`.  The `_wait_for_rate_limit('hiro')` admission that precedes
the request affects neither the result nor the attempt count and is
modelled separately (see `waitForRateLimit`). -/
def fetchContentHiro (beh : Nat → NetResult) : Option (List Nat) × Nat :=
  (resultOf beh, 1)

/-- `MultiAPICollector.fetch_with_fallback` (lines 107–119 of
`robust_collector.py`): try ordinals.com first; if the returned content is
truthy (non-`None` and non-empty) return it, otherwise try Hiro the same
way, otherwise `None`.  The second component is the attempt log: the
endpoints attempted, in order; each entry corresponds to exactly one
request. -/
def fetchWithFallback (behOrd behHiro : Nat → NetResult) :
    Option (List Nat) × List String :=
  let r1 := fetchContentOrdinalsCom behOrd
  if pyTruthy r1.1 then (r1.1, ["ordinals_com"])
  else
    let r2 := fetchContentHiro behHiro
    if pyTruthy r2.1 then (r2.1, ["ordinals_com", "hiro"])
    else (none, ["ordinals_com", "hiro"])

/-- Outcome of one gateway GET in `ArweaveCollector.fetch_content`: a
response with an HTTP status and body, or an exception. -/
inductive GwResult where
  | resp (status : Nat) (content : List Nat)
  | exn
deriving DecidableEq, Repr

/-- The gateway list declared in `ArweaveCollector.__init__`. -/
def gateways : List String :=
  ["https://arweave.net", "https://ar-io.net", "https://g8way.io"]

/-- The gateway loop of `ArweaveCollector.fetch_content` (lines 147–157 of
`arweave_collector.py`): for each gateway in order, GET `{gateway}/{tx_id}`;
on an exception continue to the next gateway; if `status_code == 200`
return `resp.content` (with no emptiness check); any other status also
falls through to the next gateway.  Second component is the attempt log. -/
def fetchContentArweaveAux (beh : String → GwResult) :
    List String → Option (List Nat) × List String
  | [] => (none, [])
  | gw :: rest =>
    match beh gw with
    | GwResult.resp s c =>
      if s = 200 then (some c, [gw])
      else
        let r := fetchContentArweaveAux beh rest
        (r.1, gw :: r.2)
    | GwResult.exn =>
      let r := fetchContentArweaveAux beh rest
      (r.1, gw :: r.2)

/-- `ArweaveCollector.fetch_content` over the declared gateway list. -/
def fetchContent (beh : String → GwResult) : Option (List Nat) × List String :=
  fetchContentArweaveAux beh gateways

/-- Modelled from the spec: "the first endpoint returning a successful,
non-empty payload wins" — the payload of the first endpoint, in declared
order, whose single attempt yields a successful (status-200) non-empty
body; erroring or non-200 endpoints are skipped. -/
def specFirstNonEmpty200 (beh : String → GwResult) :
    List String → Option (List Nat)
  | [] => none
  | gw :: rest =>
    match beh gw with
    | GwResult.resp s c =>
      if s = 200 ∧ c ≠ [] then some c else specFirstNonEmpty200 beh rest
    | GwResult.exn => specFirstNonEmpty200 beh rest

/-- Modelled from the spec, with the amendment the code forces: the payload
of the first gateway whose attempt yields status 200, even if the body is
empty. -/
def specFirst200 (beh : String → GwResult) :
    List String → Option (List Nat)
  | [] => none
  | gw :: rest =>
    match beh gw with
    | GwResult.resp s c => if s = 200 then some c else specFirst200 beh rest
    | GwResult.exn => specFirst200 beh rest

/-- Modelled from the spec: the first endpoint result (per-endpoint single
attempt) that is a successful non-empty payload, over a list of endpoint
results where `none` stands for an error/timeout. -/
def specFirstTruthy : List (Option (List Nat)) → Option (List Nat)
  | [] => none
  | r :: rs => if pyTruthy r then r else specFirstTruthy rs

/-- The result of the arweave gateway loop is the first status-200 body in
declared gateway order, empty or not. -/
theorem fetchContentArweaveAux_fst (beh : String → GwResult) :
    ∀ l : List String,
      (fetchContentArweaveAux beh l).1 = specFirst200 beh l := by
  intro l
  induction l with
  | nil => rfl
  | cons gw rest ih =>
    unfold fetchContentArweaveAux specFirst200
    cases beh gw with
    | resp s c =>
      by_cases hs : s = 200
      · simp [hs]
      · simp [hs, ih]
    | exn => simpa using ih

/-- Gateway behaviour for the C4 counterexample: the first declared gateway
answers HTTP 200 with an empty body, later gateways answer HTTP 200 with
the non-empty body `[7]`. -/
def cexGwBeh : String → GwResult := fun gw =>
  if gw = "https://arweave.net" then GwResult.resp 200 []
  else GwResult.resp 200 [7]

/-- Claim C4 counterexample: `ArweaveCollector.fetch_content` returns
`resp.content` on any status-200 response without checking non-emptiness,
so when the first gateway serves an empty 200 body the fetch result is the
empty payload of the first endpoint — not the payload of the first
endpoint with a successful **non-empty** payload, which here is `[7]` from
the second gateway. -/
theorem arweave_fetch_returns_empty_200 :
    fetchContent cexGwBeh = (some [], ["https://arweave.net"]) ∧
    specFirstNonEmpty200 cexGwBeh gateways = some [7] ∧
    some ([] : List Nat) ≠ some [7] := by
  decide

/-- Claim C4 amended: endpoints are attempted in declared order and an
endpoint that errors or times out is skipped in favour of the next.  For
`MultiAPICollector.fetch_with_fallback` the result is the first truthy
(non-`None`, non-empty) endpoint result, ordinals.com being attempted
first always; for `ArweaveCollector.fetch_content` the result is the body
of the first gateway answering status 200, even when that body is empty.
With endpoints `[A, B]` where A errors and B succeeds with non-empty
content, every fetch resolves via B and A is attempted first. -/
theorem fallback_order_first_success_wins (behOrd behHiro : Nat → NetResult)
    (gwBeh : String → GwResult) :
    (fetchWithFallback behOrd behHiro).1 =
      specFirstTruthy [(fetchContentOrdinalsCom behOrd).1,
        (fetchContentHiro behHiro).1] ∧
    (fetchWithFallback behOrd behHiro).2 =
      (if pyTruthy (resultOf behOrd) then ["ordinals_com"]
       else ["ordinals_com", "hiro"]) ∧
    (fetchContent gwBeh).1 = specFirst200 gwBeh gateways ∧
    (∀ c : List Nat, resultOf behOrd = none → resultOf behHiro = some c →
      c ≠ [] →
      fetchWithFallback behOrd behHiro = (some c, ["ordinals_com", "hiro"])) := by
  refine ⟨?_, ?_, fetchContentArweaveAux_fst gwBeh gateways, ?_⟩
  · unfold fetchWithFallback specFirstTruthy
    by_cases h1 : pyTruthy (fetchContentOrdinalsCom behOrd).1
    · simp [h1]
    · by_cases h2 : pyTruthy (fetchContentHiro behHiro).1
      · simp [h1, h2, specFirstTruthy]
      · simp [h1, h2, specFirstTruthy]
  · unfold fetchWithFallback
    by_cases h1 : pyTruthy (resultOf behOrd)
    · simp [fetchContentOrdinalsCom, fetchContentHiro, h1]
    · by_cases h2 : pyTruthy (resultOf behHiro)
      · simp [fetchContentOrdinalsCom, fetchContentHiro, h1, h2]
      · simp [fetchContentOrdinalsCom, fetchContentHiro, h1, h2]
  · intro c hord hhiro hne
    have hce : c.isEmpty = false := by
      cases c with
      | nil => exact absurd rfl hne
      | cons a l => rfl
    unfold fetchWithFallback
    simp [fetchContentOrdinalsCom, fetchContentHiro, hord, hhiro, pyTruthy,
      hce]

/-- Always-erroring ordinals.com behaviour for the C4 witness. -/
def wBehOrdErr : Nat → NetResult := fun _ => NetResult.exn true

/-- Always-succeeding Hiro behaviour for the C4 witness. -/
def wBehHiroOk : Nat → NetResult := fun _ => NetResult.ok [3]

/-- All-erroring gateway behaviour for the C4 witness. -/
def wGwBehExn : String → GwResult := fun _ => GwResult.exn

theorem fallback_order_first_success_wins_witness :
    resultOf wBehOrdErr = none ∧ resultOf wBehHiroOk = some [3] ∧
    ([3] : List Nat) ≠ [] ∧
    fetchWithFallback wBehOrdErr wBehHiroOk =
      (some [3], ["ordinals_com", "hiro"]) :=
  ⟨rfl, rfl, by decide,
   (fallback_order_first_success_wins wBehOrdErr wBehHiroOk wGwBehExn).2.2.2
     [3] rfl rfl (by decide)⟩

/-- Ordinals.com behaviour for the C6 counterexample: the first request
fails with a transient error, a second request would succeed. -/
def cexBehOrdTransient : Nat → NetResult := fun k =>
  if k = 0 then NetResult.exn true else NetResult.ok [1]

/-- Hiro behaviour for the C6 counterexample: always succeeds. -/
def cexBehHiroOk : Nat → NetResult := fun _ => NetResult.ok [2]

/-- Claim C6 counterexample: after a transient failure on ordinals.com
whose retry would have succeeded, `fetch_with_fallback` issues no second
request to ordinals.com (exactly one attempt is logged against it) and
falls through to Hiro immediately — there is no retry-before-fallback. -/
theorem transient_failure_not_retried :
    cexBehOrdTransient 0 = NetResult.exn true ∧
    cexBehOrdTransient 1 = NetResult.ok [1] ∧
    fetchWithFallback cexBehOrdTransient cexBehHiroOk =
      (some [2], ["ordinals_com", "hiro"]) ∧
    (fetchWithFallback cexBehOrdTransient cexBehHiroOk).2.count
      "ordinals_com" = 1 := by
  decide

/-- Claim C6 amended: there is no retry policy — a content fetch attempts
each endpoint at most once per item, regardless of whether the failure was
transient, and a failed (or empty) first-endpoint attempt falls through to
the next endpoint immediately. -/
theorem each_endpoint_attempted_once (behOrd behHiro : Nat → NetResult) :
    (fetchWithFallback behOrd behHiro).2.count "ordinals_com" = 1 ∧
    (fetchWithFallback behOrd behHiro).2.count "hiro" ≤ 1 ∧
    (pyTruthy (resultOf behOrd) = false →
      (fetchWithFallback behOrd behHiro).2 = ["ordinals_com", "hiro"]) := by
  unfold fetchWithFallback
  by_cases h1 : pyTruthy (resultOf behOrd)
  · refine ⟨?_, ?_, ?_⟩ <;>
      simp [fetchContentOrdinalsCom, fetchContentHiro, h1]
  · by_cases h2 : pyTruthy (resultOf behHiro)
    · refine ⟨?_, ?_, ?_⟩ <;>
        simp [fetchContentOrdinalsCom, fetchContentHiro, h1, h2]
    · refine ⟨?_, ?_, ?_⟩ <;>
        simp [fetchContentOrdinalsCom, fetchContentHiro, h1, h2]

theorem each_endpoint_attempted_once_witness :
    pyTruthy (resultOf cexBehOrdTransient) = false ∧
    (fetchWithFallback cexBehOrdTransient cexBehHiroOk).2 =
      ["ordinals_com", "hiro"] :=
  ⟨by decide,
   (each_endpoint_attempted_once cexBehOrdTransient cexBehHiroOk).2.2
     (by decide)⟩

/-! ## Content store: `save_inscription` and `save_transaction` -/

/-- An inscription dict as handled by `MultiAPICollector.save_inscription`;
keys are accessed via `.get` with defaults, hence `Option`. -/
structure Inscription where
  id : Option String
  number : Option Int
  content_type : Option String
deriving DecidableEq, Repr

/-- The `ext_map` of `save_inscription` (robust_collector.py lines
128–134). -/
def extMapOrdinals (ct : String) : String :=
  if ct = "image/png" then ".png"
  else if ct = "image/webp" then ".webp"
  else if ct = "image/gif" then ".gif"
  else if ct = "image/jpeg" then ".jpg"
  else if ct = "image/svg+xml" then ".svg"
  else if ct = "text/plain" then ".txt"
  else if ct = "text/html" then ".html"
  else if ct = "application/json" then ".json"
  else if ct = "audio/mpeg" then ".mp3"
  else ".bin"

/-- The `ext_map` of `save_transaction` (arweave_collector.py lines
167–173), which extends the ordinals one with mp4 and pdf. -/
def extMapArweave (ct : String) : String :=
  if ct = "video/mp4" then ".mp4"
  else if ct = "application/pdf" then ".pdf"
  else extMapOrdinals ct

/-- `content_type.split('/')[0] if '/' in content_type else 'other'`:
the characters before the first slash when the string contains one.
Character-list operations are used so the definition evaluates inside the
kernel. -/
def categoryOf (ct : String) : String :=
  if ct.data.contains (Char.ofNat 47) then
    String.mk (ct.data.takeWhile (fun c => c ≠ Char.ofNat 47))
  else "other"

/-- `s.split(';')[0]`: the characters before the first semicolon. -/
def beforeSemicolon (s : String) : String :=
  String.mk (s.data.takeWhile (fun c => c ≠ Char.ofNat 59))

/-- `s[:16]` on a hex digest string. -/
def take16 (s : String) : String :=
  String.mk (s.data.take 16)

/-- Filesystem state threaded through the store: how many
`write_bytes` calls were performed, and the written files (most recent
first; a path may appear several times if rewritten). -/
structure FsState where
  writes : Nat
  files : List (String × List Nat)
deriving DecidableEq, Repr

def ordinalsDirPath : String :=
  "/Volumes/Virtual Server/Projects/blockchain-research/data/ordinals"

def arweaveDirPath : String :=
  "/Volumes/Virtual Server/Projects/blockchain-research/data/arweave"

/-- The metadata dict returned by `save_inscription`. -/
structure SaveRecord where
  id : String
  number : Int
  content_type : String
  content_length : Nat
  file_hash : String
  local_path : String
deriving DecidableEq, Repr

/-- `MultiAPICollector.save_inscription` (robust_collector.py lines
121–154): derive the extension, category folder, 16-hex-char digest
prefix and filename, then unconditionally `filepath.write_bytes(content)`
— there is no existence or digest-index check before writing.  `hashHex`
abstracts `hashlib.sha256(·).hexdigest()`. -/
def save_inscription (hashHex : List Nat → String) (insc : Inscription)
    (content : List Nat) (st : FsState) : SaveRecord × FsState :=
  let content_type := insc.content_type.getD "application/octet-stream"
  let number := insc.number.getD 0
  let inscription_id := insc.id.getD ""
  let ext := extMapOrdinals content_type
  let category := categoryOf content_type
  let file_hash := take16 (hashHex content)
  let filename := toString number ++ "_" ++ file_hash ++ ext
  let filepath := ordinalsDirPath ++ "/" ++ category ++ "/" ++ filename
  ({ id := inscription_id, number := number, content_type := content_type,
     content_length := content.length, file_hash := file_hash,
     local_path := filepath },
   { writes := st.writes + 1, files := (filepath, content) :: st.files })

/-- A `data` sub-object of an Arweave GraphQL transaction node. -/
structure TxData where
  size : Option Int
  type : Option String
deriving DecidableEq, Repr

/-- An Arweave GraphQL transaction node as consumed by
`ArweaveCollector.save_transaction` and `collect_by_type`. -/
structure Tx where
  id : String
  tags : List (String × String)
  data : TxData
  blockHeight : Option Int
  blockTimestamp : Option Int
deriving DecidableEq, Repr

/-- Lookup in the dict `{t['name']: t['value'] for t in tags}`: a later
tag with the same name overrides an earlier one. -/
def tagLookup (tags : List (String × String)) (name : String) :
    Option String :=
  (tags.reverse.find? (fun t => t.1 = name)).map (fun t => t.2)

/-- The metadata dict returned by `save_transaction`. -/
structure ArweaveRecord where
  id : String
  chain : String
  block_height : Int
  timestamp : Option Int
  content_type : String
  content_length : Nat
  file_hash : String
  local_path : String
  tags : List (String × String)
  app_name : Option String
deriving DecidableEq, Repr

/-- `ArweaveCollector.save_transaction` (arweave_collector.py lines
159–199): same pattern as `save_inscription` — unconditional
`filepath.write_bytes(content)` with no existence check. -/
def save_transaction (hashHex : List Nat → String) (tx : Tx)
    (content : List Nat) (st : FsState) : ArweaveRecord × FsState :=
  let tx_id := tx.id
  let content_type :=
    (tagLookup tx.tags "Content-Type").getD
      (tx.data.type.getD "application/octet-stream")
  let ext := extMapArweave (beforeSemicolon content_type)
  let category := categoryOf content_type
  let file_hash := take16 (hashHex content)
  let block_height := tx.blockHeight.getD 0
  let filename := toString block_height ++ "_" ++ file_hash ++ ext
  let filepath := arweaveDirPath ++ "/" ++ category ++ "/" ++ filename
  ({ id := tx_id, chain := "arweave", block_height := block_height,
     timestamp := tx.blockTimestamp, content_type := content_type,
     content_length := content.length, file_hash := file_hash,
     local_path := filepath, tags := tx.tags,
     app_name := tagLookup tx.tags "App-Name" },
   { writes := st.writes + 1, files := (filepath, content) :: st.files })

/-- Concrete stand-in digest for the C2 counterexample: any deterministic
function of the bytes exhibits the failure, which is independent of the
digest. -/
def cexHashHex (bs : List Nat) : String :=
  toString (bs.foldl (fun a b => a * 256 + b + 1) 1)

/-- The inscription used in the C2 counterexample. -/
def cexInsc : Inscription :=
  { id := some "i0", number := some 1, content_type := some "text/plain" }

/-- Claim C2 counterexample: calling `save_inscription` twice with
identical content bytes returns records with the same hash and the same
`local_path`, but the destination file is written on **both** calls
(`writes = 2`, not exactly once): `filepath.write_bytes(content)` runs
unconditionally, with no existing-blob check. -/
theorem save_inscription_second_call_rewrites :
    (save_inscription cexHashHex cexInsc [104, 105] ⟨0, []⟩).1.file_hash =
      (save_inscription cexHashHex cexInsc [104, 105]
        (save_inscription cexHashHex cexInsc [104, 105] ⟨0, []⟩).2).1.file_hash ∧
    (save_inscription cexHashHex cexInsc [104, 105] ⟨0, []⟩).1.local_path =
      (save_inscription cexHashHex cexInsc [104, 105]
        (save_inscription cexHashHex cexInsc [104, 105] ⟨0, []⟩).2).1.local_path ∧
    (save_inscription cexHashHex cexInsc [104, 105]
      (save_inscription cexHashHex cexInsc [104, 105] ⟨0, []⟩).2).2.writes = 2 ∧
    (2 : Nat) ≠ 1 := by
  decide

/-- Claim C2 amended: calling the store write twice with identical content
(and the same item metadata) returns two identical records — same digest,
same `local_path` — but the destination file is written once per call: two
calls perform two writes, the second rewriting the same path with the same
bytes.  This holds for any digest function, for both
`save_inscription` and `save_transaction`. -/
theorem save_rewrites_same_path_and_hash (hashHex : List Nat → String)
    (insc : Inscription) (tx : Tx) (content : List Nat) (st st' : FsState) :
    ((save_inscription hashHex insc content
        (save_inscription hashHex insc content st).2).1 =
      (save_inscription hashHex insc content st).1) ∧
    ((save_inscription hashHex insc content
        (save_inscription hashHex insc content st).2).2.writes =
      st.writes + 2) ∧
    ((save_inscription hashHex insc content
        (save_inscription hashHex insc content st).2).2.files =
      ((save_inscription hashHex insc content st).1.local_path, content) ::
        ((save_inscription hashHex insc content st).1.local_path, content) ::
          st.files) ∧
    ((save_transaction hashHex tx content
        (save_transaction hashHex tx content st').2).1 =
      (save_transaction hashHex tx content st').1) ∧
    ((save_transaction hashHex tx content
        (save_transaction hashHex tx content st').2).2.writes =
      st'.writes + 2) ∧
    ((save_transaction hashHex tx content
        (save_transaction hashHex tx content st').2).2.files =
      ((save_transaction hashHex tx content st').1.local_path, content) ::
        ((save_transaction hashHex tx content st').1.local_path, content) ::
          st'.files) :=
  ⟨rfl, rfl, rfl, rfl, rfl, rfl⟩

/-! ## `arweave_collector.py`: `collect_by_type` -/

/-- The oversize test of `collect_by_type` (arweave_collector.py lines
214–215): `if size and int(size) > 1_000_000: continue`.  A missing size
is falsy and is not skipped. -/
def oversized (tx : Tx) : Bool :=
  match tx.data.size with
  | some s => decide (s > 1000000)
  | none => false

/-- The per-transaction loop of `ArweaveCollector.collect_by_type`
(arweave_collector.py lines 211–233), over the `transactions[:count]`
prefix.  `fetchBeh tx.id gw` is what gateway `gw` answers for that
transaction.  State: the accumulated `records`, the filesystem state, and
a per-transaction charge log `(tx id, number of gateway requests issued)`
— `0` for a transaction skipped by the size test, which `continue`s past
the fetch.  A truthy fetched content is saved via `save_transaction` and
appended; the loop breaks once `len(records) >= count`. -/
def collectByTypeLoop (hashHex : List Nat → String)
    (fetchBeh : String → String → GwResult) (count : Nat) :
    List Tx → List ArweaveRecord → FsState → List (String × Nat) →
    List ArweaveRecord × FsState × List (String × Nat)
  | [], records, st, calls => (records, st, calls)
  | tx :: rest, records, st, calls =>
    if oversized tx then
      collectByTypeLoop hashHex fetchBeh count rest records st
        (calls ++ [(tx.id, 0)])
    else
      let fr := fetchContentArweaveAux (fetchBeh tx.id) gateways
      let calls2 := calls ++ [(tx.id, fr.2.length)]
      if pyTruthy fr.1 then
        match fr.1 with
        | some c =>
          let saved := save_transaction hashHex tx c st
          let records2 := records ++ [saved.1]
          if records2.length ≥ count then (records2, saved.2, calls2)
          else collectByTypeLoop hashHex fetchBeh count rest records2
            saved.2 calls2
        | none =>
          if records.length ≥ count then (records, st, calls2)
          else collectByTypeLoop hashHex fetchBeh count rest records st calls2
      else
        if records.length ≥ count then (records, st, calls2)
        else collectByTypeLoop hashHex fetchBeh count rest records st calls2

/-- `ArweaveCollector.collect_by_type` entry: iterate over the first
`count` found transactions starting from empty state. -/
def collectByType (hashHex : List Nat → String)
    (fetchBeh : String → String → GwResult) (count : Nat)
    (transactions : List Tx) :
    List ArweaveRecord × FsState × List (String × Nat) :=
  collectByTypeLoop hashHex fetchBeh count (transactions.take count) []
    ⟨0, []⟩ []

/-- Digest stand-in for the C7 run (never invoked: the item is skipped). -/
def w7Hash : List Nat → String := fun bs => toString bs.length

/-- Gateway behaviour for the C7 run (never consulted for the oversized
item). -/
def w7Fetch : String → String → GwResult := fun _ _ => GwResult.resp 200 [1]

/-- The oversized transaction of the C7 counterexample: declared size
2,000,000 bytes, above the 1,000,000-byte ceiling. -/
def cexBigTx : Tx :=
  { id := "big", tags := [],
    data := { size := some 2000000, type := some "image/png" },
    blockHeight := some 1, blockTimestamp := none }

/-- Claim C7 counterexample: an oversized transaction is skipped before
any gateway fetch (zero requests charged: its charge-log entry is
`("big", 0)`) — but no outcome of any kind is emitted for it: the loop
`continue`s with only a log print, so the returned records list is empty
and carries no "skipped: too large" entry, contrary to the claim that a
FetchOutcome with that finalError is emitted. -/
theorem oversized_item_no_outcome_emitted :
    collectByType w7Hash w7Fetch 5 [cexBigTx] =
      ([], ⟨0, []⟩, [("big", 0)]) := by
  decide

/-- Claim C7 amended: a transaction whose declared size exceeds 1,000,000
bytes is skipped before any network fetch — zero gateway requests are
charged for it and neither the record list nor the filesystem state
changes — but the item is silently dropped: no outcome value of any kind
is emitted for it. -/
theorem oversized_item_skipped_no_calls (hashHex : List Nat → String)
    (fetchBeh : String → String → GwResult) (count : Nat) (tx : Tx)
    (rest : List Tx) (records : List ArweaveRecord) (st : FsState)
    (calls : List (String × Nat)) (h : oversized tx = true) :
    collectByTypeLoop hashHex fetchBeh count (tx :: rest) records st calls =
      collectByTypeLoop hashHex fetchBeh count rest records st
        (calls ++ [(tx.id, 0)]) := by
  conv_lhs => unfold collectByTypeLoop
  rw [if_pos h]

theorem oversized_item_skipped_no_calls_witness :
    oversized cexBigTx = true ∧
    collectByTypeLoop w7Hash w7Fetch 5 [cexBigTx] [] ⟨0, []⟩ [] =
      collectByTypeLoop w7Hash w7Fetch 5 [] [] ⟨0, []⟩ [("big", 0)] :=
  ⟨by decide,
   oversized_item_skipped_no_calls w7Hash w7Fetch 5 cexBigTx [] [] ⟨0, []⟩ []
     (by decide)⟩

/-! ## `overnight_collect.py`: deadline handling -/

/-- Fetch start times of one `MultiAPICollector.collect` batch: `collect`
processes its items sequentially and contains no deadline check anywhere
(`robust_collector.py` never reads `end_time`), so once called it runs to
completion.  Each item's fetch starts at the current clock and takes
`itemDur` seconds.  Returns the start times and the clock after the
batch. -/
def collectBatchStarts (itemDur : Int) : Nat → Int → List Int × Int
  | 0, now => ([], now)
  | n + 1, now =>
    let r := collectBatchStarts itemDur n (now + itemDur)
    (now :: r.1, r.2)

/-- The content-type loop of `OvernightCollector.collect_bitcoin_ordinals`
(overnight_collect.py lines 60–96): before each content-type batch,
`should_continue()` (lines 49–51: `datetime.now() < self.end_time`) is
checked and the loop breaks on expiry; an admitted batch is a whole
`collector.collect(...)` call followed by `time.sleep(10)`.  `batches`
lists how many items each content-type batch processes.  Returns, per
admitted batch, its admission time and its items' fetch start times. -/
def overnightBatches (endTime itemDur : Int) :
    List Nat → Int → List (Int × List Int)
  | [], _ => []
  | n :: rest, now =>
    if now < endTime then
      let b := collectBatchStarts itemDur n now
      (now, b.1) :: overnightBatches endTime itemDur rest (b.2 + 10)
    else []

/-- Claim C8 counterexample: with the deadline at time 5, a batch of five
items admitted at time 0 and taking 2 seconds per item starts item
fetches at times 6 and 8 — after the deadline has expired.  The deadline
is only consulted between content-type batches, not between items, so
item fetches are initiated after expiry. -/
theorem item_fetch_starts_after_deadline :
    overnightBatches 5 2 [5] 0 = [(0, [0, 2, 4, 6, 8])] ∧
    (6 : Int) ∈ [(0 : Int), 2, 4, 6, 8] ∧ ¬((6 : Int) < 5) := by
  decide

theorem collectBatchStarts_length (itemDur : Int) :
    ∀ (n : Nat) (now : Int), (collectBatchStarts itemDur n now).1.length = n := by
  intro n
  induction n with
  | zero => intro now; rfl
  | succ n ih =>
    intro now
    unfold collectBatchStarts
    simp [ih]

/-- Claim C8 amended: the deadline governs batch admission, not item
admission — every admitted content-type batch was admitted strictly before
the deadline and then runs all of its items to completion (possibly
starting item fetches after expiry); no batch is admitted at or after the
deadline. -/
theorem batches_admitted_before_deadline (endTime itemDur : Int)
    (batches : List Nat) (now : Int) :
    ∀ p ∈ overnightBatches endTime itemDur batches now,
      p.1 < endTime ∧ p.2.length ∈ batches := by
  induction batches generalizing now with
  | nil => intro p hp; simp [overnightBatches] at hp
  | cons n rest ih =>
    intro p hp
    unfold overnightBatches at hp
    by_cases hnow : now < endTime
    · rw [if_pos hnow] at hp
      rcases List.mem_cons.mp hp with rfl | hp'
      · exact ⟨hnow, by
          simp [collectBatchStarts_length]⟩
      · obtain ⟨h1, h2⟩ := ih _ p hp'
        exact ⟨h1, List.mem_cons_of_mem _ h2⟩
    · rw [if_neg hnow] at hp
      simp at hp

theorem batches_admitted_before_deadline_witness :
    ((0, [0, 2, 4, 6, 8]) : Int × List Int) ∈ overnightBatches 5 2 [5] 0 ∧
    ((0 : Int) < 5 ∧ ([(0 : Int), 2, 4, 6, 8]).length ∈ [5]) :=
  ⟨by decide,
   batches_admitted_before_deadline 5 2 [5] 0 (0, [0, 2, 4, 6, 8])
     (by decide)⟩

/-! ## `unified_dataset.py`: `generate_stats` -/

/-- The stats dict built by `UnifiedDatasetGenerator.generate_stats`
(unified_dataset.py lines 223–258).  `by_chain` maps a chain to its
`(count, bytes)` pair; dicts are association lists in insertion order.
The derived `total_mb` display value (a float division of `total_bytes`)
and the `generated_at` timestamp are not modelled. -/
structure Stats where
  total_records : Nat
  total_bytes : Nat
  by_chain : List (String × Nat × Nat)
  by_content_type : List (String × Nat)
  nft_count : Nat
  protocol_data_count : Nat
  recursive_count : Nat
deriving DecidableEq, Repr

/-- Insert-or-increment on the `by_chain` dict: create `{'count': 0,
'bytes': 0}` on first sight of the chain, then add 1 and the record's
byte length. -/
def bumpChain : List (String × Nat × Nat) → String → Nat →
    List (String × Nat × Nat)
  | [], c, len => [(c, 1, len)]
  | e :: rest, c, len =>
    if e.1 = c then (e.1, e.2.1 + 1, e.2.2 + len) :: rest
    else e :: bumpChain rest c len

/-- Insert-or-increment on the `by_content_type` dict. -/
def bumpCT : List (String × Nat) → String → List (String × Nat)
  | [], k => [(k, 1)]
  | e :: rest, k =>
    if e.1 = k then (e.1, e.2 + 1) :: rest else e :: bumpCT rest k

/-- The content-type bucket key: `record.content_type.split(';')[0]`. -/
def ctKey (r : UnifiedRecord) : String := beforeSemicolon r.content_type

/-- The body of the per-record loop of `generate_stats`. -/
def statsStep (s : Stats) (r : UnifiedRecord) : Stats :=
  { s with
    by_chain := bumpChain s.by_chain r.chain r.content_length,
    by_content_type := bumpCT s.by_content_type (ctKey r),
    nft_count := s.nft_count + (if r.is_nft then 1 else 0),
    protocol_data_count :=
      s.protocol_data_count + (if r.is_protocol_data then 1 else 0),
    recursive_count := s.recursive_count + (if r.is_recursive then 1 else 0) }

/-- `UnifiedDatasetGenerator.generate_stats`: seed `total_records` and
`total_bytes` up front, then fold the per-record loop over the records. -/
def generate_stats (records : List UnifiedRecord) : Stats :=
  records.foldl statsStep
    { total_records := records.length,
      total_bytes := (records.map (fun r => r.content_length)).sum,
      by_chain := [], by_content_type := [],
      nft_count := 0, protocol_data_count := 0, recursive_count := 0 }

/-- Sum of the per-chain counts of a `by_chain` dict. -/
def chainCountSum (m : List (String × Nat × Nat)) : Nat :=
  (m.map (fun e => e.2.1)).sum

/-- Sum of the per-chain byte totals of a `by_chain` dict. -/
def chainByteSum (m : List (String × Nat × Nat)) : Nat :=
  (m.map (fun e => e.2.2)).sum

/-- Sum of the per-content-type counts of a `by_content_type` dict. -/
def ctCountSum (m : List (String × Nat)) : Nat :=
  (m.map (fun e => e.2)).sum

theorem chainCountSum_bump (m : List (String × Nat × Nat)) (c : String)
    (len : Nat) : chainCountSum (bumpChain m c len) = chainCountSum m + 1 := by
  induction m with
  | nil => rfl
  | cons e rest ih =>
    unfold bumpChain
    by_cases he : e.1 = c
    · simp [he, chainCountSum]
      omega
    · simp only [he, if_false]
      simp [chainCountSum] at ih ⊢
      omega

theorem chainByteSum_bump (m : List (String × Nat × Nat)) (c : String)
    (len : Nat) :
    chainByteSum (bumpChain m c len) = chainByteSum m + len := by
  induction m with
  | nil => simp [bumpChain, chainByteSum]
  | cons e rest ih =>
    unfold bumpChain
    by_cases he : e.1 = c
    · simp [he, chainByteSum]
      omega
    · simp only [he, if_false]
      simp [chainByteSum] at ih ⊢
      omega

theorem ctCountSum_bump (m : List (String × Nat)) (k : String) :
    ctCountSum (bumpCT m k) = ctCountSum m + 1 := by
  induction m with
  | nil => rfl
  | cons e rest ih =>
    unfold bumpCT
    by_cases he : e.1 = k
    · simp [he, ctCountSum]
      omega
    · simp only [he, if_false]
      simp [ctCountSum] at ih ⊢
      omega

/-- Folding the per-record loop adds one count and the record's bytes per
record to the dict sums, and never touches the seeded totals. -/
theorem statsFold_invariants :
    ∀ (l : List UnifiedRecord) (s : Stats),
      chainCountSum (l.foldl statsStep s).by_chain =
        chainCountSum s.by_chain + l.length ∧
      chainByteSum (l.foldl statsStep s).by_chain =
        chainByteSum s.by_chain + (l.map (fun r => r.content_length)).sum ∧
      ctCountSum (l.foldl statsStep s).by_content_type =
        ctCountSum s.by_content_type + l.length ∧
      (l.foldl statsStep s).total_records = s.total_records ∧
      (l.foldl statsStep s).total_bytes = s.total_bytes := by
  intro l
  induction l with
  | nil => intro s; simp
  | cons r rest ih =>
    intro s
    obtain ⟨h1, h2, h3, h4, h5⟩ := ih (statsStep s r)
    refine ⟨?_, ?_, ?_, ?_, ?_⟩
    · rw [List.foldl_cons, h1]
      simp [statsStep, chainCountSum_bump]
      omega
    · rw [List.foldl_cons, h2]
      simp [statsStep, chainByteSum_bump]
      omega
    · rw [List.foldl_cons, h3]
      simp [statsStep, ctCountSum_bump]
      omega
    · rw [List.foldl_cons, h4]; rfl
    · rw [List.foldl_cons, h5]; rfl

/-- Claim C9: the stats returned by `generate_stats` are internally
consistent — `total_records` is the number of records, `total_bytes` is
the sum of the records' `content_length`, the per-chain counts sum to
`total_records`, the per-chain byte totals sum to `total_bytes`, and the
per-content-type counts sum to `total_records`. -/
theorem generate_stats_consistent (records : List UnifiedRecord) :
    (generate_stats records).total_records = records.length ∧
    (generate_stats records).total_bytes =
      (records.map (fun r => r.content_length)).sum ∧
    chainCountSum (generate_stats records).by_chain =
      (generate_stats records).total_records ∧
    chainByteSum (generate_stats records).by_chain =
      (generate_stats records).total_bytes ∧
    ctCountSum (generate_stats records).by_content_type =
      (generate_stats records).total_records := by
  obtain ⟨h1, h2, h3, h4, h5⟩ := statsFold_invariants records
    { total_records := records.length,
      total_bytes := (records.map (fun r => r.content_length)).sum,
      by_chain := [], by_content_type := [],
      nft_count := 0, protocol_data_count := 0, recursive_count := 0 }
  refine ⟨h4, h5, ?_, ?_, ?_⟩
  · rw [generate_stats, h1, h4]
    simp [chainCountSum]
  · rw [generate_stats, h2, h5]
    simp [chainByteSum]
  · rw [generate_stats, h3, h4]
    simp [ctCountSum]

end BlockchainResearch
